/-
Verification of the ExpenseTrackingSystem repository (C++ sources under
cpp_expense_tracker/): a shallow embedding in Lean 4 of the utility,
data-access and business-logic layers, together with theorems settling the
frozen specification claims.

Modelling conventions:
- C++ std::string is modelled by Lean String; character-level operations run
  over String.data (a list of characters).  All strings handled by the claims
  are ASCII, where the codepoint order used here coincides with the byte-wise
  comparison used by std::string and by the SQLite BINARY collation.
- C++ double is modelled by Rat (exact arithmetic on decimal amounts).
- The SQLite store is modelled by an explicit DBState value holding the three
  tables plus the AUTOINCREMENT counters; statements that the C++ layer issues
  against the store become pure functions on DBState.  The PRAGMA foreign_keys
  = ON enforcement of database.cpp and the UNIQUE name constraints of the
  schema are part of the model.  Primary keys are assumed unique, which the
  engine guarantees.
- C++ exceptions become Except String results; the carried string is the
  what() message of the thrown exception along the actual throw paths.
- getCurrentTimestamp is modelled by a clock field of DBState, since the
  claims do not depend on the clock advancing.
-/
import Mathlib

attribute [local semireducible] Rat.add

namespace ExpenseTracker

/-! ### String utilities (utils.cpp) -/

/-- Characters stripped by Utils::trim, which uses find_first_not_of(" \t\n\r"). -/
def isTrimChar (c : Char) : Bool :=
  c = ' ' || c = '\t' || c = '\n' || c = '\r'

/-- Embedding of Utils::trim (utils.cpp:333): strip the leading and trailing
run of space, tab, newline and carriage-return characters. -/
def trim (s : String) : String :=
  ⟨((s.data.dropWhile isTrimChar).reverse.dropWhile isTrimChar).reverse⟩

/-- ASCII lowercasing of one character, as std::tolower behaves in the C
locale on the ASCII range used by category names. -/
def toLowerChar (c : Char) : Char :=
  if 'A' ≤ c && c ≤ 'Z' then Char.ofNat (c.toNat + 32) else c

/-- Embedding of Utils::toLower (utils.cpp:342). -/
def toLower (s : String) : String :=
  ⟨s.data.map toLowerChar⟩

/-- Numeric value of a decimal digit character. -/
def digitVal (c : Char) : Nat :=
  c.toNat - 48

/-- Embedding of Utils::validateDate (utils.cpp:24).  The regex
^\d{4}-\d{2}-\d{2}$ fixes the shape to ten characters; the stringstream
extraction then yields the four-digit year, two-digit month and two-digit day,
and the function checks only 1 <= month <= 12 and 1 <= day <= 31 (the source
comments call this simplified validation).  No per-month day count and no leap
year rule is applied. -/
def validateDate (s : String) : Bool :=
  match s.data with
  | [y1, y2, y3, y4, h1, m1, m2, h2, d1, d2] =>
    y1.isDigit && y2.isDigit && y3.isDigit && y4.isDigit &&
    h1 = '-' && m1.isDigit && m2.isDigit &&
    h2 = '-' && d1.isDigit && d2.isDigit &&
    (let month := 10 * digitVal m1 + digitVal m2
     let day := 10 * digitVal d1 + digitVal d2
     decide (1 ≤ month ∧ month ≤ 12 ∧ 1 ≤ day ∧ day ≤ 31))
  | _ => false

/-- Embedding of Utils::validateAmount (utils.cpp:43): amount > 0.0. -/
def validateAmount (amount : Rat) : Bool :=
  decide (0 < amount)

/-- Embedding of Utils::validateNonEmpty (utils.cpp:47). -/
def validateNonEmpty (value : String) : Bool :=
  decide (trim value ≠ "")

/-- Byte-wise lexicographic order on character lists: the comparison used by
std::string and by the SQLite BINARY collation, on ASCII data. -/
def strLeCL : List Char → List Char → Bool
  | [], _ => true
  | _ :: _, [] => false
  | a :: as, b :: bs =>
    if a < b then true
    else if b < a then false
    else strLeCL as bs

/-- Byte-wise lexicographic less-or-equal on strings. -/
def strLeB (s t : String) : Bool :=
  strLeCL s.data t.data

/-! ### Data model (expense.h, database.cpp schema) -/

/-- Row of the Users table: id INTEGER PRIMARY KEY AUTOINCREMENT, name TEXT
UNIQUE NOT NULL. -/
structure User where
  id : Int
  name : String
deriving DecidableEq

/-- Row of the Categories table: same shape as Users. -/
structure Category where
  id : Int
  name : String
deriving DecidableEq

/-- Persisted row of the Expenses table (database.cpp:121). -/
structure ExpenseRow where
  id : Int
  date : String
  category_id : Int
  title : String
  amount : Rat
  created_at : String
  user_id : Int
deriving DecidableEq

/-- Expense struct as populated by Models::fetchExpensesByFilters
(models.cpp:392): the seven selected columns.  The category_id and user_id
members of the C++ struct are left at their default 0 by the fetch loop, so
they are not part of the fetched view. -/
structure FetchedExpense where
  id : Int
  date : String
  title : String
  amount : Rat
  created_at : String
  category_name : String
  user_name : String
deriving DecidableEq

/-- State of the SQLite store: the three tables in insertion order, the next
AUTOINCREMENT id per table, and the current clock reading used to stamp
created_at. -/
structure DBState where
  users : List User
  categories : List Category
  expenses : List ExpenseRow
  nextUserId : Int
  nextCategoryId : Int
  nextExpenseId : Int
  now : String
deriving DecidableEq

/-- Fresh store right after Database::initialize, before any seeding is
considered, with a given clock reading.  (Claims never depend on the seven
seeded default categories, so tests start from explicit category lists.) -/
def emptyDB (now : String) : DBState :=
  ⟨[], [], [], 1, 1, 1, now⟩

/-! ### Data-access layer (models.cpp) -/

namespace Models

/-- Embedding of Models::createUser (models.cpp:25): trims the name, throws
invalid_argument on an empty result, then INSERTs the trimmed name; the UNIQUE
constraint makes the step fail on a duplicate, which the function surfaces as
runtime_error("Failed to insert user"). -/
def createUser (db : DBState) (name : String) : Except String (Int × DBState) :=
  let trimmed_name := trim name
  if trimmed_name = "" then
    .error "User name cannot be empty"
  else if db.users.any (fun u => u.name = trimmed_name) then
    .error "Failed to insert user"
  else
    .ok (db.nextUserId,
      { db with
        users := db.users ++ [⟨db.nextUserId, trimmed_name⟩],
        nextUserId := db.nextUserId + 1 })

/-- Embedding of Models::getUserByName (models.cpp:111): SELECT by exact name,
returning the first (by uniqueness, only) match or none. -/
def getUserByName (db : DBState) (name : String) : Option User :=
  db.users.find? (fun u => u.name = name)

/-- Embedding of Models::createCategory (models.cpp:140): INSERTs the name as
given.  Unlike createUser there is no trimming and no emptiness check; only
the UNIQUE constraint can make the insert fail, surfaced as
runtime_error("Failed to insert category"). -/
def createCategory (db : DBState) (name : String) : Except String (Int × DBState) :=
  if db.categories.any (fun c => c.name = name) then
    .error "Failed to insert category"
  else
    .ok (db.nextCategoryId,
      { db with
        categories := db.categories ++ [⟨db.nextCategoryId, name⟩],
        nextCategoryId := db.nextCategoryId + 1 })

/-- Embedding of Models::getAllCategories (models.cpp:171): SELECT ordered by
name ascending (BINARY collation). -/
def getAllCategories (db : DBState) : List Category :=
  List.insertionSort (fun a b => strLeB a.name b.name = true) db.categories

/-- Embedding of Models::getCategoryByName (models.cpp:198). -/
def getCategoryByName (db : DBState) (name : String) : Option Category :=
  db.categories.find? (fun c => c.name = name)

/-- Embedding of Models::insertExpense (models.cpp:227): validates the trimmed
title and the positivity of the amount, stamps created_at from the clock, and
INSERTs; with PRAGMA foreign_keys = ON the insert fails unless category_id and
user_id reference existing rows, surfaced as
runtime_error("Failed to insert expense"). -/
def insertExpense (db : DBState) (date : String) (category_id : Int)
    (title : String) (amount : Rat) (user_id : Int) :
    Except String (Int × DBState) :=
  let trimmed_title := trim title
  if trimmed_title = "" then
    .error "Expense title cannot be empty"
  else if amount ≤ 0 then
    .error "Expense amount must be positive"
  else if ¬ (db.categories.any (fun c => c.id = category_id) ∧
             db.users.any (fun u => u.id = user_id)) then
    .error "Failed to insert expense"
  else
    .ok (db.nextExpenseId,
      { db with
        expenses := db.expenses ++
          [⟨db.nextExpenseId, date, category_id, trimmed_title, amount,
            db.now, user_id⟩],
        nextExpenseId := db.nextExpenseId + 1 })

/-- Optional filter arguments of Models::fetchExpensesByFilters; a none field
models a nullptr argument. -/
structure Filters where
  min_date : Option String := none
  max_date : Option String := none
  min_amount : Option Rat := none
  max_amount : Option Rat := none
  category_ids : Option (List Int) := none
  user_id : Option Int := none
deriving DecidableEq

/-- Row of the three-way join Expenses JOIN Categories JOIN Users before
projection. -/
structure JoinedRow where
  row : ExpenseRow
  category_name : String
  user_name : String
deriving DecidableEq

/-- Inner join of the Expenses table with Categories and Users on the two
foreign keys (models.cpp:311); primary keys are unique, so find? returns the
joined parent row. -/
def joinRows (db : DBState) : List JoinedRow :=
  db.expenses.filterMap (fun e =>
    match db.categories.find? (fun c => c.id = e.category_id),
          db.users.find? (fun u => u.id = e.user_id) with
    | some c, some u => some ⟨e, c.name, u.name⟩
    | _, _ => none)

/-- WHERE-clause conditions pushed in the order the source builds them
(models.cpp:320): one predicate per present parameter, where a present but
empty category-id list contributes no predicate. -/
def conditionList (f : Filters) : List (JoinedRow → Bool) :=
  (match f.min_date with
   | some d => [fun r => strLeB d r.row.date]
   | none => []) ++
  (match f.max_date with
   | some d => [fun r => strLeB r.row.date d]
   | none => []) ++
  (match f.min_amount with
   | some a => [fun r => decide (a ≤ r.row.amount)]
   | none => []) ++
  (match f.max_amount with
   | some a => [fun r => decide (r.row.amount ≤ a)]
   | none => []) ++
  (match f.category_ids with
   | some l => if l.isEmpty then [] else [fun r => l.contains r.row.category_id]
   | none => []) ++
  (match f.user_id with
   | some uid => [fun r => decide (r.row.user_id = uid)]
   | none => [])

/-- ORDER BY e.date DESC, e.created_at DESC as a relation on joined rows:
a row sorts no later than another when its date is larger, or the dates tie
and its created_at is no smaller. -/
def dateDescLe (a b : JoinedRow) : Bool :=
  if a.row.date = b.row.date then strLeB b.row.created_at a.row.created_at
  else strLeB b.row.date a.row.date

/-- Projection of a joined row to the Expense struct the fetch loop populates
(models.cpp:392). -/
def toFetched (r : JoinedRow) : FetchedExpense :=
  ⟨r.row.id, r.row.date, r.row.title, r.row.amount, r.row.created_at,
   r.category_name, r.user_name⟩

/-- Embedding of Models::fetchExpensesByFilters (models.cpp:293): join, keep
the rows passing every built condition, order by date descending then
created_at descending, and project. -/
def fetchExpensesByFilters (db : DBState) (f : Filters) : List FetchedExpense :=
  (List.insertionSort (fun a b => dateDescLe a b = true)
    ((joinRows db).filter (fun r => (conditionList f).all (fun c => c r)))).map
    toFetched

end Models

/-! ### Business-logic layer (expense_operations.cpp) -/

namespace ExpenseOperations

/-- Get-or-create block of ExpenseOperations::recordExpense for the user
(expense_operations.cpp:42): look the raw name up; on a miss call createUser,
wrapping any failure as runtime_error("Failed to create user: " + what). -/
def resolveUser (db : DBState) (user_name : String) :
    Except String (Int × DBState) :=
  match Models.getUserByName db user_name with
  | some u => .ok (u.id, db)
  | none =>
    match Models.createUser db user_name with
    | .ok (uid, db1) => .ok (uid, db1)
    | .error e => .error ("Failed to create user: " ++ e)

/-- Get-or-create block of ExpenseOperations::recordExpense for the category
(expense_operations.cpp:58). -/
def resolveCategory (db : DBState) (category : String) :
    Except String (Int × DBState) :=
  match Models.getCategoryByName db category with
  | some c => .ok (c.id, db)
  | none =>
    match Models.createCategory db category with
    | .ok (cid, db1) => .ok (cid, db1)
    | .error e => .error ("Failed to create category: " ++ e)

/-- Embedding of ExpenseOperations::recordExpense (expense_operations.cpp:22):
the five validations in source order, then user resolution, category
resolution, and the insert, whose failure is wrapped as
runtime_error("Failed to record expense: " + what).  An error result leaves
the store exactly as passed in, matching the C++ exception propagation. -/
def recordExpense (db : DBState) (date category title : String)
    (amount : Rat) (user_name : String) : Except String (Int × DBState) :=
  if validateDate date = false then .error "Invalid date format"
  else if validateAmount amount = false then .error "Amount must be positive"
  else if validateNonEmpty title = false then .error "Title cannot be empty"
  else if validateNonEmpty user_name = false then .error "User name cannot be empty"
  else if validateNonEmpty category = false then .error "Category cannot be empty"
  else
    match resolveUser db user_name with
    | .error e => .error e
    | .ok (user_id, db1) =>
      match resolveCategory db1 category with
      | .error e => .error e
      | .ok (category_id, db2) =>
        match Models.insertExpense db2 date category_id title amount user_id with
        | .ok (eid, db3) => .ok (eid, db3)
        | .error e => .error ("Failed to record expense: " ++ e)

/-- Embedding of ExpenseOperations::viewAllExpenses
(expense_operations.cpp:164): fetch with every filter argument defaulted. -/
def viewAllExpenses (db : DBState) : List FetchedExpense :=
  Models.fetchExpensesByFilters db {}

/-- Embedding of ExpenseOperations::viewExpensesByAmount
(expense_operations.cpp:98): a bound is passed to the fetch only when it is
strictly positive. -/
def viewExpensesByAmount (db : DBState) (min_amount max_amount : Rat) :
    List FetchedExpense :=
  Models.fetchExpensesByFilters db
    { min_amount := if 0 < min_amount then some min_amount else none,
      max_amount := if 0 < max_amount then some max_amount else none }

/-- Insert-or-assign into the association list modelling the std::map from
lowered category name to id; operator[] assignment overwrites an existing key
and otherwise inserts the new binding.  Keys are unique, so only the key-value
function of the map is semantically relevant; the iteration order of std::map
is not observed by any claim and is not modelled. -/
def assocSet (m : List (String × Int)) (k : String) (v : Int) :
    List (String × Int) :=
  match m with
  | [] => [(k, v)]
  | (k1, v1) :: rest =>
    if k = k1 then (k, v) :: rest
    else (k1, v1) :: assocSet rest k v

/-- Lookup in the association list, mirroring std::map::find. -/
def assocFind (m : List (String × Int)) (k : String) : Option Int :=
  (m.find? (fun p => p.1 = k)).map (fun p => p.2)

/-- Case-insensitive lookup map built by ExpenseOperations::viewExpensesByCategory
(expense_operations.cpp:124) from getAllCategories. -/
def buildCategoryLookup (db : DBState) : List (String × Int) :=
  (Models.getAllCategories db).foldl
    (fun m c => assocSet m (toLower c.name) c.id) []

/-- Embedding of ExpenseOperations::viewExpensesByCategory
(expense_operations.cpp:112): empty request list short-circuits to empty;
requested names resolve through the case-insensitive lookup with misses
dropped; zero resolved ids returns empty; otherwise fetch filtered by the
resolved ids. -/
def viewExpensesByCategory (db : DBState) (categories : List String) :
    List FetchedExpense :=
  if categories.isEmpty then []
  else
    let lookup := buildCategoryLookup db
    let category_ids := categories.filterMap (fun n => assocFind lookup (toLower n))
    if category_ids.isEmpty then []
    else Models.fetchExpensesByFilters db { category_ids := some category_ids }

/-- Per-expense summary aggregate (expense.h): total, count, and the three
std::map groupings, modelled as sorted association lists. -/
structure ExpenseSummary where
  total : Rat
  count : Nat
  by_category : List (String × Rat)
  by_user : List (String × Rat)
  user_expenses : List (String × List FetchedExpense)
deriving DecidableEq

/-- Default-constructed summary: zero total and count, empty maps. -/
def emptySummary : ExpenseSummary :=
  ⟨0, 0, [], [], []⟩

/-- Map accumulation step for summary.by_category and summary.by_user
(expense_operations.cpp:208): operator[] default-inserts 0 and += adds.  Keys
stay unique; the sorted iteration order of std::map is not observed by any
claim and is not modelled. -/
def addToMap (m : List (String × Rat)) (k : String) (v : Rat) :
    List (String × Rat) :=
  match m with
  | [] => [(k, v)]
  | (k1, v1) :: rest =>
    if k = k1 then (k1, v1 + v) :: rest
    else (k1, v1) :: addToMap rest k v

/-- Map accumulation step for summary.user_expenses
(expense_operations.cpp:214): operator[] default-inserts an empty vector and
push_back appends. -/
def addToListMap (m : List (String × List FetchedExpense)) (k : String)
    (e : FetchedExpense) : List (String × List FetchedExpense) :=
  match m with
  | [] => [(k, [e])]
  | (k1, l1) :: rest =>
    if k = k1 then (k1, l1 ++ [e]) :: rest
    else (k1, l1) :: addToListMap rest k e

/-- Embedding of ExpenseOperations::calculateSummary
(expense_operations.cpp:178): a nullptr expense argument defaults to the full
fetch; an empty list returns the default-constructed summary; otherwise one
pass fills count, total and the three maps. -/
def calculateSummary (db : DBState) (expenses : Option (List FetchedExpense)) :
    ExpenseSummary :=
  let exp_list := match expenses with
    | none => viewAllExpenses db
    | some l => l
  if exp_list.isEmpty then emptySummary
  else
    { total := exp_list.foldl (fun acc e => acc + e.amount) 0,
      count := exp_list.length,
      by_category := exp_list.foldl (fun m e => addToMap m e.category_name e.amount) [],
      by_user := exp_list.foldl (fun m e => addToMap m e.user_name e.amount) [],
      user_expenses := exp_list.foldl (fun m e => addToListMap m e.user_name e) [] }

end ExpenseOperations

/-! ### Claim-side definitions

Definitions below restate filter and ordering properties the way the
specification words them, for comparison against the embedded code, plus
concrete fixtures used by witnesses and counterexamples. -/

/-- Value of a summary map at a key, with the zero default that operator[]
would have inserted: the reading of by_user[u] in the claims. -/
def mapVal : List (String × Rat) → String → Rat
  | [], _ => 0
  | (k1, v1) :: rest, k => if k = k1 then v1 else mapVal rest k

/-- Conjunction of filter predicates exactly as claim C6 words it: each
present parameter contributes one conjunct, an absent parameter none, and a
present but empty category-id list restricts nothing. -/
def specPasses (f : Models.Filters) (r : Models.JoinedRow) : Bool :=
  (match f.min_date with
   | some d => strLeB d r.row.date
   | none => true) &&
  (match f.max_date with
   | some d => strLeB r.row.date d
   | none => true) &&
  (match f.min_amount with
   | some a => decide (a ≤ r.row.amount)
   | none => true) &&
  (match f.max_amount with
   | some a => decide (r.row.amount ≤ a)
   | none => true) &&
  (match f.category_ids with
   | some l => l.isEmpty || l.contains r.row.category_id
   | none => true) &&
  (match f.user_id with
   | some uid => decide (r.row.user_id = uid)
   | none => true)

/-- Ordering required by claim C7 on the fetched rows: date descending with
ties broken by created_at descending. -/
def dateDescLeF (a b : FetchedExpense) : Bool :=
  if a.date = b.date then strLeB b.created_at a.created_at
  else strLeB b.date a.date

/-- Store reached from the fresh store by the first recordExpense call of the
C3 counterexample: user name " Alice " was stored trimmed as "Alice". -/
def dbAfterFirst : DBState :=
  ⟨[⟨1, "Alice"⟩], [⟨1, "Food"⟩],
   [⟨1, "2025-01-01", 1, "Lunch", 10, "2025-01-01 10:00:00", 1⟩],
   2, 2, 2, "2025-01-01 10:00:00"⟩

/-- Concrete store used by witnesses: two users, two categories and three
expenses whose foreign keys all resolve. -/
def sampleDB : DBState :=
  ⟨[⟨1, "Alice"⟩, ⟨2, "Bob"⟩],
   [⟨1, "Food"⟩, ⟨2, "Transportation"⟩],
   [⟨1, "2025-10-20", 1, "Groceries", 10, "2025-10-20 08:00:00", 1⟩,
    ⟨2, "2025-10-25", 2, "Bus pass", 20, "2025-10-25 09:00:00", 2⟩,
    ⟨3, "2025-10-30", 1, "Dinner", 30, "2025-10-30 19:00:00", 1⟩],
   3, 3, 4, "2025-10-30 20:00:00"⟩

/-- Concrete expense list used by witnesses, following the scenario of the
specification: Alice 25, Bob 15, Alice 40. -/
def sampleExpenses : List FetchedExpense :=
  [⟨1, "2025-10-20", "Groceries", 25, "2025-10-20 08:00:00", "Food", "Alice"⟩,
   ⟨2, "2025-10-21", "Bus pass", 15, "2025-10-21 09:00:00", "Transportation", "Bob"⟩,
   ⟨3, "2025-10-22", "Dinner", 40, "2025-10-22 19:00:00", "Food", "Alice"⟩]

/-! ### Order lemmas for the byte-wise string comparison -/

theorem strLeCL_refl (s : List Char) : strLeCL s s = true := by
  induction s with
  | nil => rfl
  | cons a as ih => simp [strLeCL, ih]

theorem strLeCL_total (s t : List Char) : strLeCL s t = true ∨ strLeCL t s = true := by
  induction s generalizing t with
  | nil => left; rfl
  | cons a as ih =>
    cases t with
    | nil => right; rfl
    | cons b bs =>
      rcases lt_trichotomy a b with h | h | h
      · left; simp [strLeCL, h]
      · subst h; simpa [strLeCL] using ih bs
      · right; simp [strLeCL, h]

theorem strLeCL_trans {s t u : List Char} (h1 : strLeCL s t = true)
    (h2 : strLeCL t u = true) : strLeCL s u = true := by
  induction s generalizing t u with
  | nil => rfl
  | cons a as ih =>
    cases t with
    | nil => simp [strLeCL] at h1
    | cons b bs =>
      cases u with
      | nil => simp [strLeCL] at h2
      | cons c cs =>
        simp only [strLeCL] at h1 h2 ⊢
        rcases lt_trichotomy a b with hab | hab | hab
        · rcases lt_trichotomy b c with hbc | hbc | hbc
          · simp [lt_trans hab hbc]
          · subst hbc; simp [hab]
          · simp [hbc, lt_asymm hbc] at h2
        · subst hab
          simp only [lt_irrefl, if_false] at h1
          rcases lt_trichotomy a c with hac | hac | hac
          · simp [hac]
          · subst hac
            simp only [lt_irrefl, if_false] at h2 ⊢
            exact ih h1 h2
          · simp [hac, lt_asymm hac] at h2
        · simp [hab, lt_asymm hab] at h1

theorem strLeCL_antisymm {s t : List Char} (h1 : strLeCL s t = true)
    (h2 : strLeCL t s = true) : s = t := by
  induction s generalizing t with
  | nil =>
    cases t with
    | nil => rfl
    | cons b bs => simp [strLeCL] at h2
  | cons a as ih =>
    cases t with
    | nil => simp [strLeCL] at h1
    | cons b bs =>
      simp only [strLeCL] at h1 h2
      rcases lt_trichotomy a b with hab | hab | hab
      · simp [hab, lt_asymm hab] at h2
      · subst hab
        simp only [lt_irrefl, if_false] at h1 h2
        exact congrArg (a :: ·) (ih h1 h2)
      · simp [hab, lt_asymm hab] at h1

theorem strLeB_refl (s : String) : strLeB s s = true :=
  strLeCL_refl s.data

theorem strLeB_total (s t : String) : strLeB s t = true ∨ strLeB t s = true :=
  strLeCL_total s.data t.data

theorem strLeB_trans {s t u : String} (h1 : strLeB s t = true)
    (h2 : strLeB t u = true) : strLeB s u = true :=
  strLeCL_trans h1 h2

theorem strLeB_antisymm {s t : String} (h1 : strLeB s t = true)
    (h2 : strLeB t s = true) : s = t := by
  cases s; cases t
  exact congrArg String.mk (strLeCL_antisymm h1 h2)

/-! ### The fetch ordering relation is total and transitive -/

theorem dateDescLe_total (a b : Models.JoinedRow) :
    Models.dateDescLe a b = true ∨ Models.dateDescLe b a = true := by
  simp only [Models.dateDescLe]
  by_cases h : a.row.date = b.row.date
  · rw [if_pos h, if_pos h.symm]
    exact strLeB_total b.row.created_at a.row.created_at
  · rw [if_neg h, if_neg (fun hh => h hh.symm)]
    exact (strLeB_total b.row.date a.row.date).imp id id

theorem dateDescLe_trans {a b c : Models.JoinedRow}
    (h1 : Models.dateDescLe a b = true) (h2 : Models.dateDescLe b c = true) :
    Models.dateDescLe a c = true := by
  simp only [Models.dateDescLe] at h1 h2 ⊢
  by_cases hab : a.row.date = b.row.date
  · rw [if_pos hab] at h1
    by_cases hbc : b.row.date = c.row.date
    · rw [if_pos hbc] at h2
      rw [if_pos (hab.trans hbc)]
      exact strLeB_trans h2 h1
    · rw [if_neg hbc] at h2
      rw [if_neg (fun h => hbc (hab.symm.trans h)), hab]
      exact h2
  · rw [if_neg hab] at h1
    by_cases hbc : b.row.date = c.row.date
    · rw [if_neg (fun h => hab (h.trans hbc.symm)), ← hbc]
      exact h1
    · rw [if_neg hbc] at h2
      by_cases hac : a.row.date = c.row.date
      · exact absurd (strLeB_antisymm (hac ▸ h1) h2) hbc
      · rw [if_neg hac]
        exact strLeB_trans h2 h1

instance : IsTotal Models.JoinedRow (fun a b => Models.dateDescLe a b = true) :=
  ⟨dateDescLe_total⟩

instance : IsTrans Models.JoinedRow (fun a b => Models.dateDescLe a b = true) :=
  ⟨fun _ _ _ => dateDescLe_trans⟩

/-! ### Claim C1 -/

/-- C1: the claim states that validateDate accepts exactly the calendrically
valid YYYY-MM-DD dates with real per-month day counts and leap years, and in
particular rejects "2025-02-30".  The code checks only the shape and the
ranges 1-12 and 1-31, so it accepts "2025-02-30"; the repository test
test_utils.cpp:53 expects false there, so the code contradicts its own test
suite (code bug).  This theorem evaluates the embedded code at the failing
input and at the other boundary inputs of the claim. -/
theorem C1_validateDate_eval :
    validateDate "2025-02-30" = true ∧
    validateDate "2024-02-29" = true ∧
    validateDate "2025-13-01" = false ∧
    validateDate "2025-10-32" = false := by
  decide

/-! ### Claim C4 -/

theorem foldl_add_amount (l : List FetchedExpense) (acc : Rat) :
    l.foldl (fun a e => a + e.amount) acc
      = acc + (l.map (fun e => e.amount)).sum := by
  induction l generalizing acc with
  | nil => simp
  | cons e es ih => simp [ih, add_assoc]

/-- C4: for every input sequence of expenses, including the empty one,
calculateSummary returns count equal to the length of the sequence and total
equal to the sum of its amounts, and on the empty sequence it returns the
default summary (zero total and count, empty maps); the function is total, so
no error is possible. -/
theorem C4_calculateSummary_total_count (db : DBState)
    (l : List FetchedExpense) :
    (ExpenseOperations.calculateSummary db (some l)).count = l.length ∧
    (ExpenseOperations.calculateSummary db (some l)).total
      = (l.map (fun e => e.amount)).sum ∧
    ExpenseOperations.calculateSummary db (some [])
      = ExpenseOperations.emptySummary := by
  refine ⟨?_, ?_, rfl⟩ <;>
    cases l with
    | nil => simp [ExpenseOperations.calculateSummary,
        ExpenseOperations.emptySummary]
    | cons e es =>
      simp [ExpenseOperations.calculateSummary, foldl_add_amount]

/-! ### Claim C5 -/

theorem mapVal_addToMap (m : List (String × Rat)) (k : String) (v : Rat)
    (k0 : String) :
    mapVal (ExpenseOperations.addToMap m k v) k0
      = if k0 = k then mapVal m k0 + v else mapVal m k0 := by
  induction m with
  | nil =>
    by_cases h : k0 = k <;> simp [ExpenseOperations.addToMap, mapVal, h]
  | cons p rest ih =>
    obtain ⟨k1, v1⟩ := p
    by_cases h1 : k = k1
    · subst h1
      by_cases h0 : k0 = k <;>
        simp [ExpenseOperations.addToMap, mapVal, h0]
    · by_cases h0 : k0 = k1
      · subst h0
        rw [if_neg (Ne.symm h1)]
        simp [ExpenseOperations.addToMap, mapVal, h1, Ne.symm h1]
      · simp [ExpenseOperations.addToMap, mapVal, h1, h0, ih]

theorem sumVals_addToMap (m : List (String × Rat)) (k : String) (v : Rat) :
    ((ExpenseOperations.addToMap m k v).map Prod.snd).sum
      = (m.map Prod.snd).sum + v := by
  induction m with
  | nil => simp [ExpenseOperations.addToMap]
  | cons p rest ih =>
    obtain ⟨k1, v1⟩ := p
    by_cases h : k = k1
    · simp only [ExpenseOperations.addToMap, if_pos h, List.map_cons,
        List.sum_cons]
      ring
    · simp only [ExpenseOperations.addToMap, if_neg h, List.map_cons,
        List.sum_cons, ih]
      ring

theorem mapVal_fold_user (l : List FetchedExpense)
    (m : List (String × Rat)) (u : String) :
    mapVal (l.foldl (fun m e => ExpenseOperations.addToMap m e.user_name e.amount) m) u
      = mapVal m u
        + ((l.filter (fun e => e.user_name = u)).map (fun e => e.amount)).sum := by
  induction l generalizing m with
  | nil => simp
  | cons e es ih =>
    rw [List.foldl_cons, ih, mapVal_addToMap]
    by_cases h : u = e.user_name
    · rw [if_pos h, List.filter_cons_of_pos (by simp [h]),
        List.map_cons, List.sum_cons, add_assoc]
    · rw [if_neg h, List.filter_cons_of_neg
        (by simp only [decide_eq_true_eq]; exact Ne.symm h)]

theorem sumVals_fold_user (l : List FetchedExpense)
    (m : List (String × Rat)) :
    ((l.foldl (fun m e => ExpenseOperations.addToMap m e.user_name e.amount) m).map
        Prod.snd).sum
      = (m.map Prod.snd).sum + (l.map (fun e => e.amount)).sum := by
  induction l generalizing m with
  | nil => simp
  | cons e es ih =>
    rw [List.foldl_cons, ih, sumVals_addToMap, List.map_cons, List.sum_cons,
      add_assoc, add_comm e.amount]

/-- C5: for a non-empty expense list (user names are plain strings, never
null), the by_user map of the summary holds, at every user u, the sum of the
amounts of the expenses whose user_name is u, and the values of by_user sum
to the total (partition property). -/
theorem C5_by_user_partition (db : DBState) (l : List FetchedExpense)
    (hne : l ≠ []) (u : String) :
    mapVal ((ExpenseOperations.calculateSummary db (some l)).by_user) u
      = ((l.filter (fun e => e.user_name = u)).map (fun e => e.amount)).sum ∧
    (((ExpenseOperations.calculateSummary db (some l)).by_user).map
        Prod.snd).sum
      = (ExpenseOperations.calculateSummary db (some l)).total := by
  cases l with
  | nil => exact absurd rfl hne
  | cons e es =>
    constructor
    · rw [show (ExpenseOperations.calculateSummary db (some (e :: es))).by_user
          = (e :: es).foldl
              (fun m x => ExpenseOperations.addToMap m x.user_name x.amount) []
        from rfl, mapVal_fold_user]
      simp [mapVal]
    · rw [show (ExpenseOperations.calculateSummary db (some (e :: es))).by_user
          = (e :: es).foldl
              (fun m x => ExpenseOperations.addToMap m x.user_name x.amount) []
        from rfl, sumVals_fold_user,
        show (ExpenseOperations.calculateSummary db (some (e :: es))).total
          = (e :: es).foldl (fun a x => a + x.amount) 0 from rfl,
        foldl_add_amount]
      simp

/-- Witness for C5 at the concrete scenario of the specification: expenses
Alice 25, Bob 15, Alice 40 and user Alice. -/
theorem C5_by_user_partition_witness :
    sampleExpenses ≠ [] ∧
    (mapVal ((ExpenseOperations.calculateSummary sampleDB
          (some sampleExpenses)).by_user) "Alice"
        = ((sampleExpenses.filter (fun e => e.user_name = "Alice")).map
            (fun e => e.amount)).sum ∧
      (((ExpenseOperations.calculateSummary sampleDB
            (some sampleExpenses)).by_user).map Prod.snd).sum
        = (ExpenseOperations.calculateSummary sampleDB
            (some sampleExpenses)).total) :=
  ⟨by decide, C5_by_user_partition sampleDB sampleExpenses (by decide) "Alice"⟩

/-! ### Claim C10 -/

/-- C10: viewExpensesByAmount passes a bound to the store only when it is
strictly positive, so a minimum not greater than zero contributes no minimum
predicate, a maximum not greater than zero contributes no maximum predicate,
and the call with both bounds zero is exactly the unfiltered view of all
expenses. -/
theorem C10_viewExpensesByAmount_zero (db : DBState) (mn mx : Rat) :
    (mn ≤ 0 → ExpenseOperations.viewExpensesByAmount db mn mx
      = Models.fetchExpensesByFilters db
          { max_amount := if 0 < mx then some mx else none }) ∧
    (mx ≤ 0 → ExpenseOperations.viewExpensesByAmount db mn mx
      = Models.fetchExpensesByFilters db
          { min_amount := if 0 < mn then some mn else none }) ∧
    ExpenseOperations.viewExpensesByAmount db 0 0
      = ExpenseOperations.viewAllExpenses db := by
  refine ⟨fun h => ?_, fun h => ?_, ?_⟩
  · simp only [ExpenseOperations.viewExpensesByAmount,
      if_neg (not_lt.mpr h)]
  · simp only [ExpenseOperations.viewExpensesByAmount,
      if_neg (not_lt.mpr h)]
  · simp only [ExpenseOperations.viewExpensesByAmount,
      if_neg (lt_irrefl (0 : Rat))]
    rfl

/-- Witness for C10 at the concrete store sampleDB with both bounds zero. -/
theorem C10_viewExpensesByAmount_zero_witness :
    ((0 : Rat) ≤ 0) ∧
    (((0 : Rat) ≤ 0 → ExpenseOperations.viewExpensesByAmount sampleDB 0 0
      = Models.fetchExpensesByFilters sampleDB
          { max_amount := if (0 : Rat) < 0 then some 0 else none }) ∧
    ((0 : Rat) ≤ 0 → ExpenseOperations.viewExpensesByAmount sampleDB 0 0
      = Models.fetchExpensesByFilters sampleDB
          { min_amount := if (0 : Rat) < 0 then some 0 else none }) ∧
    ExpenseOperations.viewExpensesByAmount sampleDB 0 0
      = ExpenseOperations.viewAllExpenses sampleDB) :=
  ⟨le_refl 0, C10_viewExpensesByAmount_zero sampleDB 0 0⟩

/-! ### Claim C6 -/

theorem all_conditionList_eq_specPasses (f : Models.Filters)
    (r : Models.JoinedRow) :
    (Models.conditionList f).all (fun c => c r) = specPasses f r := by
  obtain ⟨md, xd, ma, xa, ci, ui⟩ := f
  cases ci with
  | none =>
    cases md <;> cases xd <;> cases ma <;> cases xa <;> cases ui <;>
      simp [Models.conditionList, specPasses, List.all_append, Bool.and_assoc]
  | some l =>
    cases l <;> cases md <;> cases xd <;> cases ma <;> cases xa <;>
        cases ui <;>
      simp [Models.conditionList, specPasses, List.all_append, Bool.and_assoc]

/-- C6: fetchExpensesByFilters returns (up to the final ordering) exactly the
joined rows satisfying the conjunction of the predicates contributed by the
present parameters, absent parameters contributing none, and a present but
empty category-id list behaves exactly like an absent category filter. -/
theorem C6_fetch_conjunction (db : DBState) (f : Models.Filters) :
    (Models.fetchExpensesByFilters db f).Perm
      (((Models.joinRows db).filter (fun r => specPasses f r)).map
        Models.toFetched) ∧
    Models.fetchExpensesByFilters db { f with category_ids := some [] }
      = Models.fetchExpensesByFilters db { f with category_ids := none } := by
  constructor
  · have hfilter : (Models.joinRows db).filter
        (fun r => (Models.conditionList f).all (fun c => c r))
        = (Models.joinRows db).filter (fun r => specPasses f r) := by
      apply List.filter_congr
      intro a _
      exact all_conditionList_eq_specPasses f a
    simp only [Models.fetchExpensesByFilters, hfilter]
    exact (List.perm_insertionSort _ _).map _
  · have hcond : Models.conditionList { f with category_ids := some [] }
        = Models.conditionList { f with category_ids := none } := rfl
    simp only [Models.fetchExpensesByFilters, hcond]

/-! ### Claim C7 -/

theorem joinRows_length_of_fk (db : DBState)
    (hfk : ∀ e ∈ db.expenses,
      db.categories.any (fun c => c.id = e.category_id) = true ∧
      db.users.any (fun u => u.id = e.user_id) = true) :
    (Models.joinRows db).length = db.expenses.length := by
  have key : ∀ l : List ExpenseRow,
      (∀ e ∈ l,
        db.categories.any (fun c => c.id = e.category_id) = true ∧
        db.users.any (fun u => u.id = e.user_id) = true) →
      (l.filterMap (fun e =>
        match db.categories.find? (fun c => c.id = e.category_id),
              db.users.find? (fun u => u.id = e.user_id) with
        | some c, some u => some (⟨e, c.name, u.name⟩ : Models.JoinedRow)
        | _, _ => none)).length = l.length := by
    intro l
    induction l with
    | nil => intro _; rfl
    | cons e es ih =>
      intro hl
      have he := hl e (List.mem_cons_self e es)
      obtain ⟨c, hc⟩ := Option.isSome_iff_exists.mp
        (List.find?_isSome.mpr (List.any_eq_true.mp he.1))
      obtain ⟨u, hu⟩ := Option.isSome_iff_exists.mp
        (List.find?_isSome.mpr (List.any_eq_true.mp he.2))
      simp only [List.filterMap_cons, hc, hu, List.length_cons]
      exact congrArg (· + 1)
        (ih (fun x hx => hl x (List.mem_cons_of_mem e hx)))
  exact key db.expenses hfk

/-- C7: the fetched sequence is ordered by date descending with ties broken
by created_at descending for every filter combination, and with all filter
arguments absent it is a permutation of the full joined expense table, with
one output row per stored expense when every foreign key resolves. -/
theorem C7_fetch_ordering (db : DBState) (f : Models.Filters)
    (hfk : ∀ e ∈ db.expenses,
      db.categories.any (fun c => c.id = e.category_id) = true ∧
      db.users.any (fun u => u.id = e.user_id) = true) :
    List.Sorted (fun a b => dateDescLeF a b = true)
      (Models.fetchExpensesByFilters db f) ∧
    (Models.fetchExpensesByFilters db {}).Perm
      ((Models.joinRows db).map Models.toFetched) ∧
    (Models.fetchExpensesByFilters db {}).length = db.expenses.length := by
  have hall : ∀ r : Models.JoinedRow,
      (Models.conditionList {}).all (fun c => c r) = true := fun r => rfl
  have hfullfilter : (Models.joinRows db).filter
      (fun r => (Models.conditionList {}).all (fun c => c r))
      = Models.joinRows db := by
    rw [List.filter_congr (fun a _ => hall a)]
    exact List.filter_true _
  refine ⟨?_, ?_, ?_⟩
  · have hs := List.sorted_insertionSort
      (fun a b => Models.dateDescLe a b = true)
      ((Models.joinRows db).filter
        (fun r => (Models.conditionList f).all (fun c => c r)))
    exact List.Pairwise.map _ (fun a b h => h) hs
  · simp only [Models.fetchExpensesByFilters, hfullfilter]
    exact (List.perm_insertionSort _ _).map _
  · simp only [Models.fetchExpensesByFilters, hfullfilter, List.length_map]
    rw [(List.perm_insertionSort _ _).length_eq]
    exact joinRows_length_of_fk db hfk

/-- Witness for C7 at the concrete store sampleDB, whose three expenses all
reference existing users and categories, with no filters. -/
theorem C7_fetch_ordering_witness :
    (∀ e ∈ sampleDB.expenses,
      sampleDB.categories.any (fun c => c.id = e.category_id) = true ∧
      sampleDB.users.any (fun u => u.id = e.user_id) = true) ∧
    (List.Sorted (fun a b => dateDescLeF a b = true)
      (Models.fetchExpensesByFilters sampleDB {}) ∧
    (Models.fetchExpensesByFilters sampleDB {}).Perm
      ((Models.joinRows sampleDB).map Models.toFetched) ∧
    (Models.fetchExpensesByFilters sampleDB {}).length
      = sampleDB.expenses.length) :=
  ⟨by decide, C7_fetch_ordering sampleDB {} (by decide)⟩

/-! ### Claim C2 -/

/-- C2 counterexample: the claim states that createCategory also fails with
an empty-name error for a blank name, but the embedded createCategory has no
blank-name check: on the fresh store it inserts the blank name " " (blank
after trimming) and returns its id. -/
theorem C2_counterexample_createCategory_blank :
    trim " " = "" ∧
    Models.createCategory (emptyDB "T") " "
      = .ok (1, ⟨[], [⟨1, " "⟩], [], 1, 2, 1, "T"⟩) :=
  ⟨rfl, rfl⟩

/-- C2 (amended): for every name that is blank after trimming, createUser
fails with the empty-name error and inserts no row, while createCategory
performs no blank-name check: whenever the blank name is not already present
it inserts the name as given and returns the new id. -/
theorem C2_blank_name_amended (db : DBState) (name : String)
    (h : trim name = "") :
    Models.createUser db name = .error "User name cannot be empty" ∧
    ((∀ c ∈ db.categories, c.name ≠ name) →
      Models.createCategory db name
        = .ok (db.nextCategoryId,
            { db with
              categories := db.categories ++ [⟨db.nextCategoryId, name⟩],
              nextCategoryId := db.nextCategoryId + 1 })) := by
  constructor
  · simp [Models.createUser, h]
  · intro hall
    have hany : db.categories.any (fun c => c.name = name) = false := by
      rw [List.any_eq_false]
      intro c hc
      simpa using hall c hc
    simp [Models.createCategory, hany]

/-- Witness for C2 at the blank name " " on the fresh store. -/
theorem C2_blank_name_amended_witness :
    trim " " = "" ∧
    (Models.createUser (emptyDB "T") " " = .error "User name cannot be empty" ∧
    ((∀ c ∈ (emptyDB "T").categories, c.name ≠ " ") →
      Models.createCategory (emptyDB "T") " "
        = .ok ((emptyDB "T").nextCategoryId,
            { emptyDB "T" with
              categories := (emptyDB "T").categories
                ++ [⟨(emptyDB "T").nextCategoryId, " "⟩],
              nextCategoryId := (emptyDB "T").nextCategoryId + 1 }))) :=
  ⟨rfl, C2_blank_name_amended (emptyDB "T") " " rfl⟩

/-! ### Claim C9 -/

/-- C9: every recordExpense input failing one of the five validations (bad
date, non-positive amount, blank title, blank user name, blank category after
trimming) is rejected with exactly the validation message of the first
failing check in source order, each message naming its offending field
("Invalid date format", "Amount must be positive", "Title cannot be empty",
"User name cannot be empty", "Category cannot be empty"), before any store
operation: the embedded recordExpense returns the error without touching the
store it was given, so no User, Category or Expense row is created. -/
theorem C9_validation_rejects (db : DBState) (date category title : String)
    (amount : Rat) (user_name : String)
    (h : ¬ (validateDate date = true ∧ validateAmount amount = true ∧
            validateNonEmpty title = true ∧
            validateNonEmpty user_name = true ∧
            validateNonEmpty category = true)) :
    ExpenseOperations.recordExpense db date category title amount user_name
      = .error
          (if validateDate date = false then "Invalid date format"
           else if validateAmount amount = false then "Amount must be positive"
           else if validateNonEmpty title = false then "Title cannot be empty"
           else if validateNonEmpty user_name = false then
             "User name cannot be empty"
           else "Category cannot be empty") := by
  by_cases hd : validateDate date = true
  case neg =>
    simp [ExpenseOperations.recordExpense, Bool.not_eq_true _ ▸ hd]
  all_goals by_cases ha : validateAmount amount = true
  case neg =>
    simp [ExpenseOperations.recordExpense, hd, Bool.not_eq_true _ ▸ ha]
  all_goals by_cases ht : validateNonEmpty title = true
  case neg =>
    simp [ExpenseOperations.recordExpense, hd, ha, Bool.not_eq_true _ ▸ ht]
  all_goals by_cases hu : validateNonEmpty user_name = true
  case neg =>
    simp [ExpenseOperations.recordExpense, hd, ha, ht,
      Bool.not_eq_true _ ▸ hu]
  all_goals by_cases hc : validateNonEmpty category = true
  case neg =>
    simp [ExpenseOperations.recordExpense, hd, ha, ht, hu,
      Bool.not_eq_true _ ▸ hc]
  exact absurd ⟨hd, ha, ht, hu, hc⟩ h

/-- Witness for C9 at a blank title with an otherwise valid input on the
concrete store: the date and amount checks pass, so the selected message is
the one naming the title field. -/
theorem C9_validation_rejects_witness :
    (¬ (validateDate "2025-01-01" = true ∧ validateAmount 10 = true ∧
        validateNonEmpty "   " = true ∧ validateNonEmpty "Alice" = true ∧
        validateNonEmpty "Food" = true)) ∧
    ExpenseOperations.recordExpense sampleDB "2025-01-01" "Food" "   " 10
        "Alice"
      = .error
          (if validateDate "2025-01-01" = false then "Invalid date format"
           else if validateAmount 10 = false then "Amount must be positive"
           else if validateNonEmpty "   " = false then "Title cannot be empty"
           else if validateNonEmpty "Alice" = false then
             "User name cannot be empty"
           else "Category cannot be empty") :=
  ⟨by decide,
   C9_validation_rejects sampleDB "2025-01-01" "Food" "   " 10 "Alice"
     (by decide)⟩

/-! ### Claim C8 -/

theorem mem_assocSet {m : List (String × Int)} {k : String} {v : Int}
    {p : String × Int} (hp : p ∈ ExpenseOperations.assocSet m k v) :
    p.1 = k ∨ p ∈ m := by
  induction m with
  | nil =>
    simp [ExpenseOperations.assocSet] at hp
    left
    rw [hp]
  | cons q rest ih =>
    obtain ⟨k1, v1⟩ := q
    by_cases h : k = k1
    · simp only [ExpenseOperations.assocSet, if_pos h, List.mem_cons] at hp
      rcases hp with hp | hp
      · left; rw [hp]
      · right; exact List.mem_cons_of_mem _ hp
    · simp only [ExpenseOperations.assocSet, if_neg h, List.mem_cons] at hp
      rcases hp with hp | hp
      · right; rw [hp]; exact List.mem_cons_self _ _
      · rcases ih hp with he | hm
        · left; exact he
        · right; exact List.mem_cons_of_mem _ hm

theorem lookup_key_origin (db : DBState) (k : String) (v : Int)
    (h : ExpenseOperations.assocFind (ExpenseOperations.buildCategoryLookup db) k
      = some v) :
    ∃ c ∈ db.categories, toLower c.name = k := by
  have inv : ∀ (cs : List Category) (m : List (String × Int))
      (p : String × Int),
      p ∈ cs.foldl (fun m c => ExpenseOperations.assocSet m (toLower c.name) c.id) m →
      (∃ c ∈ cs, toLower c.name = p.1) ∨ p ∈ m := by
    intro cs
    induction cs with
    | nil => exact fun m p hp => Or.inr hp
    | cons c rest ih =>
      intro m p hp
      rcases ih _ p hp with ⟨c0, hc0, he⟩ | hm
      · exact Or.inl ⟨c0, List.mem_cons_of_mem _ hc0, he⟩
      · rcases mem_assocSet hm with he | hm2
        · exact Or.inl ⟨c, List.mem_cons_self _ _, he.symm⟩
        · exact Or.inr hm2
  obtain ⟨p0, hfind, hv⟩ := Option.map_eq_some'.mp h
  have hp0k : p0.1 = k := by simpa using List.find?_some hfind
  have hp0mem : p0 ∈ ExpenseOperations.buildCategoryLookup db :=
    List.mem_of_find?_eq_some hfind
  rcases inv (Models.getAllCategories db) [] p0 hp0mem with ⟨c, hc, he⟩ | habs
  · exact ⟨c, ((List.perm_insertionSort _ _).mem_iff).mp hc, he.trans hp0k⟩
  · exact absurd habs (List.not_mem_nil p0)

theorem lookup_none_of_no_match (db : DBState) (k : String)
    (hno : ∀ c ∈ db.categories, toLower c.name ≠ k) :
    ExpenseOperations.assocFind (ExpenseOperations.buildCategoryLookup db) k
      = none := by
  cases hfind : ExpenseOperations.assocFind
      (ExpenseOperations.buildCategoryLookup db) k with
  | none => rfl
  | some v =>
    obtain ⟨c, hc, he⟩ := lookup_key_origin db k v hfind
    exact absurd he (hno c hc)

/-- C8: for a non-empty list of requested category names,
viewExpensesByCategory resolves names through the case-insensitive lookup
built from getAllCategories: when no requested name matches any category it
returns the empty sequence (not all expenses), an unmatched name appended to
the request changes nothing (silently dropped, no error), and a non-empty
result implies some requested name matched a stored category
case-insensitively. -/
theorem C8_view_by_category (db : DBState) (names : List String)
    (hne : names ≠ []) :
    ((∀ n ∈ names, ∀ c ∈ db.categories, toLower c.name ≠ toLower n) →
      ExpenseOperations.viewExpensesByCategory db names = []) ∧
    (∀ junk : String, (∀ c ∈ db.categories, toLower c.name ≠ toLower junk) →
      ExpenseOperations.viewExpensesByCategory db (names ++ [junk])
        = ExpenseOperations.viewExpensesByCategory db names) ∧
    (ExpenseOperations.viewExpensesByCategory db names ≠ [] →
      ∃ n ∈ names, ∃ c ∈ db.categories, toLower c.name = toLower n) := by
  have hne0 : names.isEmpty = false := by
    cases names with
    | nil => exact absurd rfl hne
    | cons a l => rfl
  refine ⟨fun h => ?_, fun junk hj => ?_, fun hneq => ?_⟩
  · have hids : names.filterMap (fun n =>
        ExpenseOperations.assocFind (ExpenseOperations.buildCategoryLookup db)
          (toLower n)) = [] := by
      rw [List.filterMap_eq_nil_iff]
      intro n hn
      exact lookup_none_of_no_match db _ (fun c hc => h n hn c hc)
    simp [ExpenseOperations.viewExpensesByCategory, hne0, hids]
  · have hjunkNone : ExpenseOperations.assocFind
        (ExpenseOperations.buildCategoryLookup db) (toLower junk) = none :=
      lookup_none_of_no_match db _ (fun c hc => hj c hc)
    have happend : (names ++ [junk]).isEmpty = false := by
      cases names with
      | nil => exact absurd rfl hne
      | cons a l => rfl
    simp only [ExpenseOperations.viewExpensesByCategory, hne0, happend,
      List.filterMap_append, Bool.false_eq_true, if_false]
    simp [hjunkNone]
  · by_cases hids : names.filterMap (fun n =>
        ExpenseOperations.assocFind (ExpenseOperations.buildCategoryLookup db)
          (toLower n)) = []
    · exact absurd
        (by simp [ExpenseOperations.viewExpensesByCategory, hne0, hids]) hneq
    · obtain ⟨v, hv⟩ := List.exists_mem_of_ne_nil _ hids
      obtain ⟨n, hn, hfn⟩ := List.mem_filterMap.mp hv
      obtain ⟨c, hc, he⟩ := lookup_key_origin db _ v hfn
      exact ⟨n, hn, c, hc, he⟩

/-- Witness for C8 at the concrete store sampleDB with the request
["food", "xyz"]: "food" matches the stored category "Food" case-insensitively
and "xyz" matches nothing. -/
theorem C8_view_by_category_witness :
    (["food", "xyz"] ≠ ([] : List String)) ∧
    (((∀ n ∈ ["food", "xyz"], ∀ c ∈ sampleDB.categories,
        toLower c.name ≠ toLower n) →
      ExpenseOperations.viewExpensesByCategory sampleDB ["food", "xyz"] = []) ∧
    (∀ junk : String,
      (∀ c ∈ sampleDB.categories, toLower c.name ≠ toLower junk) →
      ExpenseOperations.viewExpensesByCategory sampleDB
          (["food", "xyz"] ++ [junk])
        = ExpenseOperations.viewExpensesByCategory sampleDB ["food", "xyz"]) ∧
    (ExpenseOperations.viewExpensesByCategory sampleDB ["food", "xyz"] ≠ [] →
      ∃ n ∈ ["food", "xyz"], ∃ c ∈ sampleDB.categories,
        toLower c.name = toLower n)) :=
  ⟨by decide, C8_view_by_category sampleDB ["food", "xyz"] (by decide)⟩

/-! ### Claim C3 -/

theorem find?_append_none {α : Type} (p : α → Bool) {l1 : List α}
    (l2 : List α) (h : l1.find? p = none) :
    (l1 ++ l2).find? p = l2.find? p := by
  induction l1 with
  | nil => rfl
  | cons a l ih =>
    cases hp : p a with
    | true =>
      rw [List.find?_cons_of_pos _ hp] at h
      exact absurd h (by simp)
    | false =>
      rw [List.find?_cons_of_neg _ (by simp [hp])] at h
      rw [List.cons_append, List.find?_cons_of_neg _ (by simp [hp])]
      exact ih h

theorem resolveUser_found (db : DBState) (u : String) (x : User)
    (h : Models.getUserByName db u = some x) :
    ExpenseOperations.resolveUser db u = .ok (x.id, db) := by
  simp [ExpenseOperations.resolveUser, h]

theorem resolveUser_new (db : DBState) (u : String)
    (hnew : Models.getUserByName db u = none)
    (htrim : trim u = u) (h0 : u ≠ "") :
    ExpenseOperations.resolveUser db u
      = .ok (db.nextUserId,
          { db with
            users := db.users ++ [⟨db.nextUserId, u⟩],
            nextUserId := db.nextUserId + 1 }) := by
  have hany : db.users.any (fun x => x.name = u) = false := by
    rw [List.any_eq_false]
    intro x hx
    have hne := List.find?_eq_none.mp hnew x hx
    simpa using hne
  simp [ExpenseOperations.resolveUser, hnew, Models.createUser, htrim, h0,
    hany]

theorem resolveCategory_found (db : DBState) (c : String) (x : Category)
    (h : Models.getCategoryByName db c = some x) :
    ExpenseOperations.resolveCategory db c = .ok (x.id, db) := by
  simp [ExpenseOperations.resolveCategory, h]

theorem resolveCategory_new (db : DBState) (c : String)
    (hnew : Models.getCategoryByName db c = none) :
    ExpenseOperations.resolveCategory db c
      = .ok (db.nextCategoryId,
          { db with
            categories := db.categories ++ [⟨db.nextCategoryId, c⟩],
            nextCategoryId := db.nextCategoryId + 1 }) := by
  have hany : db.categories.any (fun x => x.name = c) = false := by
    rw [List.any_eq_false]
    intro x hx
    have hne := List.find?_eq_none.mp hnew x hx
    simpa using hne
  simp [ExpenseOperations.resolveCategory, hnew, Models.createCategory, hany]

theorem insertExpense_ok (db : DBState) (date : String) (cid : Int)
    (title : String) (amount : Rat) (uid : Int)
    (ht : trim title ≠ "") (ha : 0 < amount)
    (hcid : db.categories.any (fun c => c.id = cid) = true)
    (huid : db.users.any (fun x => x.id = uid) = true) :
    Models.insertExpense db date cid title amount uid
      = .ok (db.nextExpenseId,
          { db with
            expenses := db.expenses ++
              [⟨db.nextExpenseId, date, cid, trim title, amount, db.now, uid⟩],
            nextExpenseId := db.nextExpenseId + 1 }) := by
  simp [Models.insertExpense, ht, not_le.mpr ha, hcid, huid]

theorem recordExpense_unfold (db : DBState) (date category title : String)
    (amount : Rat) (user_name : String)
    (hd : validateDate date = true) (hva : validateAmount amount = true)
    (hvt : validateNonEmpty title = true)
    (hvu : validateNonEmpty user_name = true)
    (hvc : validateNonEmpty category = true) :
    ExpenseOperations.recordExpense db date category title amount user_name
      = match ExpenseOperations.resolveUser db user_name with
        | .error e => .error e
        | .ok (user_id, db1) =>
          match ExpenseOperations.resolveCategory db1 category with
          | .error e => .error e
          | .ok (category_id, db2) =>
            match Models.insertExpense db2 date category_id title amount
                user_id with
            | .ok (eid, db3) => .ok (eid, db3)
            | .error e => .error ("Failed to record expense: " ++ e) := by
  simp [ExpenseOperations.recordExpense, hd, hva, hvt, hvu, hvc]

/-- C3 counterexample: " Alice " is a valid user name for recordExpense
(non-blank after trimming), and on the fresh store the first call succeeds,
storing the user under the trimmed name "Alice".  The claim says the second
call with the same name creates no additional row and resolves to the same
existing id; instead the raw-name lookup misses again, the trimmed re-insert
violates the unique constraint, and the call fails. -/
theorem C3_counterexample_padded_user_name :
    validateNonEmpty " Alice " = true ∧
    ExpenseOperations.recordExpense (emptyDB "2025-01-01 10:00:00")
        "2025-01-01" "Food" "Lunch" 10 " Alice "
      = .ok (1, dbAfterFirst) ∧
    dbAfterFirst.users = [⟨1, "Alice"⟩] ∧
    ExpenseOperations.recordExpense dbAfterFirst
        "2025-01-01" "Food" "Lunch" 10 " Alice "
      = .error "Failed to create user: Failed to insert user" :=
  ⟨by decide, rfl, rfl, rfl⟩

/-- C3 (amended): for valid expense inputs whose user name carries no
surrounding whitespace (trim(user_name) = user_name), recordExpense with a
user name not yet present creates exactly one new User row (and an unseen
category exactly one new Category row, a present one none), and the second
call with the same names creates no additional User or Category row and
stamps both inserted expenses with the same resolved user and category
ids. -/
theorem C3_identity_resolution_amended (db : DBState)
    (date category title : String) (amount : Rat) (user_name : String)
    (hd : validateDate date = true) (ha : 0 < amount)
    (ht : trim title ≠ "") (hcat : trim category ≠ "")
    (hutrim : trim user_name = user_name) (hu0 : user_name ≠ "")
    (hnewU : Models.getUserByName db user_name = none) :
    ∃ eid1 db1 eid2 db2 cid,
      ExpenseOperations.recordExpense db date category title amount user_name
        = .ok (eid1, db1) ∧
      db1.users = db.users ++ [⟨db.nextUserId, user_name⟩] ∧
      (Models.getCategoryByName db category = none →
        db1.categories = db.categories ++ [⟨db.nextCategoryId, category⟩]) ∧
      (∀ c, Models.getCategoryByName db category = some c →
        db1.categories = db.categories) ∧
      ExpenseOperations.recordExpense db1 date category title amount user_name
        = .ok (eid2, db2) ∧
      db2.users = db1.users ∧
      db2.categories = db1.categories ∧
      (db1.expenses.map (fun e => (e.user_id, e.category_id))).getLast?
        = some (db.nextUserId, cid) ∧
      (db2.expenses.map (fun e => (e.user_id, e.category_id))).getLast?
        = some (db.nextUserId, cid) := by
  have hva : validateAmount amount = true := by
    simp [validateAmount, ha]
  have hvt : validateNonEmpty title = true := by
    simp [validateNonEmpty, ht]
  have hvu : validateNonEmpty user_name = true := by
    simp [validateNonEmpty, hutrim, hu0]
  have hvc : validateNonEmpty category = true := by
    simp [validateNonEmpty, hcat]
  have hrecord := recordExpense_unfold db date category title amount user_name
    hd hva hvt hvu hvc
  have hru : ExpenseOperations.resolveUser db user_name
      = .ok (db.nextUserId,
          { db with
            users := db.users ++ [⟨db.nextUserId, user_name⟩],
            nextUserId := db.nextUserId + 1 }) :=
    resolveUser_new db user_name hnewU hutrim hu0
  have hfindU2 : ∀ dbx : DBState,
      dbx.users = db.users ++ [⟨db.nextUserId, user_name⟩] →
      Models.getUserByName dbx user_name = some ⟨db.nextUserId, user_name⟩ := by
    intro dbx hx
    show dbx.users.find? _ = _
    rw [hx, find?_append_none _ _ hnewU, List.find?_cons_of_pos _ (by simp)]
  cases hcc : Models.getCategoryByName db category with
  | none =>
    have hrc : ExpenseOperations.resolveCategory
        { db with
          users := db.users ++ [⟨db.nextUserId, user_name⟩],
          nextUserId := db.nextUserId + 1 } category
        = .ok (db.nextCategoryId,
            { db with
              users := db.users ++ [⟨db.nextUserId, user_name⟩],
              nextUserId := db.nextUserId + 1,
              categories := db.categories ++ [⟨db.nextCategoryId, category⟩],
              nextCategoryId := db.nextCategoryId + 1 }) :=
      resolveCategory_new _ category hcc
    have hins1 : Models.insertExpense
        { db with
          users := db.users ++ [⟨db.nextUserId, user_name⟩],
          nextUserId := db.nextUserId + 1,
          categories := db.categories ++ [⟨db.nextCategoryId, category⟩],
          nextCategoryId := db.nextCategoryId + 1 }
        date db.nextCategoryId title amount db.nextUserId
        = .ok (db.nextExpenseId,
            { db with
              users := db.users ++ [⟨db.nextUserId, user_name⟩],
              nextUserId := db.nextUserId + 1,
              categories := db.categories ++ [⟨db.nextCategoryId, category⟩],
              nextCategoryId := db.nextCategoryId + 1,
              expenses := db.expenses ++
                [⟨db.nextExpenseId, date, db.nextCategoryId, trim title,
                  amount, db.now, db.nextUserId⟩],
              nextExpenseId := db.nextExpenseId + 1 }) :=
      insertExpense_ok _ date db.nextCategoryId title amount db.nextUserId
        ht ha (by simp) (by simp)
    have hcall1 : ExpenseOperations.recordExpense db date category title
        amount user_name
        = .ok (db.nextExpenseId,
            { db with
              users := db.users ++ [⟨db.nextUserId, user_name⟩],
              nextUserId := db.nextUserId + 1,
              categories := db.categories ++ [⟨db.nextCategoryId, category⟩],
              nextCategoryId := db.nextCategoryId + 1,
              expenses := db.expenses ++
                [⟨db.nextExpenseId, date, db.nextCategoryId, trim title,
                  amount, db.now, db.nextUserId⟩],
              nextExpenseId := db.nextExpenseId + 1 }) := by
      rw [hrecord]
      simp only [hru, hrc, hins1]
    have hru2 : ExpenseOperations.resolveUser
        { db with
          users := db.users ++ [⟨db.nextUserId, user_name⟩],
          nextUserId := db.nextUserId + 1,
          categories := db.categories ++ [⟨db.nextCategoryId, category⟩],
          nextCategoryId := db.nextCategoryId + 1,
          expenses := db.expenses ++
            [⟨db.nextExpenseId, date, db.nextCategoryId, trim title,
              amount, db.now, db.nextUserId⟩],
          nextExpenseId := db.nextExpenseId + 1 } user_name
        = .ok (db.nextUserId,
            { db with
              users := db.users ++ [⟨db.nextUserId, user_name⟩],
              nextUserId := db.nextUserId + 1,
              categories := db.categories ++ [⟨db.nextCategoryId, category⟩],
              nextCategoryId := db.nextCategoryId + 1,
              expenses := db.expenses ++
                [⟨db.nextExpenseId, date, db.nextCategoryId, trim title,
                  amount, db.now, db.nextUserId⟩],
              nextExpenseId := db.nextExpenseId + 1 }) :=
      resolveUser_found _ user_name ⟨db.nextUserId, user_name⟩
        (hfindU2 _ rfl)
    have hfindC2 : Models.getCategoryByName
        { db with
          users := db.users ++ [⟨db.nextUserId, user_name⟩],
          nextUserId := db.nextUserId + 1,
          categories := db.categories ++ [⟨db.nextCategoryId, category⟩],
          nextCategoryId := db.nextCategoryId + 1,
          expenses := db.expenses ++
            [⟨db.nextExpenseId, date, db.nextCategoryId, trim title,
              amount, db.now, db.nextUserId⟩],
          nextExpenseId := db.nextExpenseId + 1 } category
        = some (⟨db.nextCategoryId, category⟩ : Category) := by
      show (db.categories ++ [(⟨db.nextCategoryId, category⟩ : Category)]).find?
          (fun c => c.name = category) = some ⟨db.nextCategoryId, category⟩
      rw [find?_append_none _ _ hcc, List.find?_cons_of_pos _ (by simp)]
    have hrc2 := resolveCategory_found _ category
      (⟨db.nextCategoryId, category⟩ : Category) hfindC2
    have hins2 : Models.insertExpense
        { db with
          users := db.users ++ [⟨db.nextUserId, user_name⟩],
          nextUserId := db.nextUserId + 1,
          categories := db.categories ++ [⟨db.nextCategoryId, category⟩],
          nextCategoryId := db.nextCategoryId + 1,
          expenses := db.expenses ++
            [⟨db.nextExpenseId, date, db.nextCategoryId, trim title,
              amount, db.now, db.nextUserId⟩],
          nextExpenseId := db.nextExpenseId + 1 }
        date db.nextCategoryId title amount db.nextUserId
        = .ok (db.nextExpenseId + 1,
            { db with
              users := db.users ++ [⟨db.nextUserId, user_name⟩],
              nextUserId := db.nextUserId + 1,
              categories := db.categories ++ [⟨db.nextCategoryId, category⟩],
              nextCategoryId := db.nextCategoryId + 1,
              expenses := (db.expenses ++
                [⟨db.nextExpenseId, date, db.nextCategoryId, trim title,
                  amount, db.now, db.nextUserId⟩]) ++
                [⟨db.nextExpenseId + 1, date, db.nextCategoryId, trim title,
                  amount, db.now, db.nextUserId⟩],
              nextExpenseId := db.nextExpenseId + 1 + 1 }) :=
      insertExpense_ok _ date db.nextCategoryId title amount db.nextUserId
        ht ha (by simp) (by simp)
    have hcall2 : ExpenseOperations.recordExpense
        { db with
          users := db.users ++ [⟨db.nextUserId, user_name⟩],
          nextUserId := db.nextUserId + 1,
          categories := db.categories ++ [⟨db.nextCategoryId, category⟩],
          nextCategoryId := db.nextCategoryId + 1,
          expenses := db.expenses ++
            [⟨db.nextExpenseId, date, db.nextCategoryId, trim title,
              amount, db.now, db.nextUserId⟩],
          nextExpenseId := db.nextExpenseId + 1 }
        date category title amount user_name
        = .ok (db.nextExpenseId + 1,
            { db with
              users := db.users ++ [⟨db.nextUserId, user_name⟩],
              nextUserId := db.nextUserId + 1,
              categories := db.categories ++ [⟨db.nextCategoryId, category⟩],
              nextCategoryId := db.nextCategoryId + 1,
              expenses := (db.expenses ++
                [⟨db.nextExpenseId, date, db.nextCategoryId, trim title,
                  amount, db.now, db.nextUserId⟩]) ++
                [⟨db.nextExpenseId + 1, date, db.nextCategoryId, trim title,
                  amount, db.now, db.nextUserId⟩],
              nextExpenseId := db.nextExpenseId + 1 + 1 }) := by
      rw [recordExpense_unfold _ date category title amount user_name
        hd hva hvt hvu hvc]
      simp only [hru2, hrc2, hins2]
    refine ⟨db.nextExpenseId, _, db.nextExpenseId + 1, _, db.nextCategoryId,
      hcall1, rfl, fun _ => rfl, ?_, hcall2, rfl, rfl, ?_, ?_⟩
    · exact fun c hc => Option.noConfusion hc
    · simp
    · simp
  | some c =>
    have hcmem : c ∈ db.categories := List.mem_of_find?_eq_some hcc
    have hcany : ∀ extra : List Category,
        (db.categories ++ extra).any (fun x => x.id = c.id) = true := by
      intro extra
      rw [List.any_eq_true]
      exact ⟨c, List.mem_append_left _ hcmem, by simp⟩
    have hrc : ExpenseOperations.resolveCategory
        { db with
          users := db.users ++ [⟨db.nextUserId, user_name⟩],
          nextUserId := db.nextUserId + 1 } category
        = .ok (c.id,
            { db with
              users := db.users ++ [⟨db.nextUserId, user_name⟩],
              nextUserId := db.nextUserId + 1 }) :=
      resolveCategory_found _ category c hcc
    have hins1 : Models.insertExpense
        { db with
          users := db.users ++ [⟨db.nextUserId, user_name⟩],
          nextUserId := db.nextUserId + 1 }
        date c.id title amount db.nextUserId
        = .ok (db.nextExpenseId,
            { db with
              users := db.users ++ [⟨db.nextUserId, user_name⟩],
              nextUserId := db.nextUserId + 1,
              expenses := db.expenses ++
                [⟨db.nextExpenseId, date, c.id, trim title,
                  amount, db.now, db.nextUserId⟩],
              nextExpenseId := db.nextExpenseId + 1 }) :=
      insertExpense_ok _ date c.id title amount db.nextUserId
        ht ha (by simpa using hcany []) (by simp)
    have hcall1 : ExpenseOperations.recordExpense db date category title
        amount user_name
        = .ok (db.nextExpenseId,
            { db with
              users := db.users ++ [⟨db.nextUserId, user_name⟩],
              nextUserId := db.nextUserId + 1,
              expenses := db.expenses ++
                [⟨db.nextExpenseId, date, c.id, trim title,
                  amount, db.now, db.nextUserId⟩],
              nextExpenseId := db.nextExpenseId + 1 }) := by
      rw [hrecord]
      simp only [hru, hrc, hins1]
    have hru2 : ExpenseOperations.resolveUser
        { db with
          users := db.users ++ [⟨db.nextUserId, user_name⟩],
          nextUserId := db.nextUserId + 1,
          expenses := db.expenses ++
            [⟨db.nextExpenseId, date, c.id, trim title,
              amount, db.now, db.nextUserId⟩],
          nextExpenseId := db.nextExpenseId + 1 } user_name
        = .ok (db.nextUserId,
            { db with
              users := db.users ++ [⟨db.nextUserId, user_name⟩],
              nextUserId := db.nextUserId + 1,
              expenses := db.expenses ++
                [⟨db.nextExpenseId, date, c.id, trim title,
                  amount, db.now, db.nextUserId⟩],
              nextExpenseId := db.nextExpenseId + 1 }) :=
      resolveUser_found _ user_name ⟨db.nextUserId, user_name⟩
        (hfindU2 _ rfl)
    have hrc2 : ExpenseOperations.resolveCategory
        { db with
          users := db.users ++ [⟨db.nextUserId, user_name⟩],
          nextUserId := db.nextUserId + 1,
          expenses := db.expenses ++
            [⟨db.nextExpenseId, date, c.id, trim title,
              amount, db.now, db.nextUserId⟩],
          nextExpenseId := db.nextExpenseId + 1 } category
        = .ok (c.id,
            { db with
              users := db.users ++ [⟨db.nextUserId, user_name⟩],
              nextUserId := db.nextUserId + 1,
              expenses := db.expenses ++
                [⟨db.nextExpenseId, date, c.id, trim title,
                  amount, db.now, db.nextUserId⟩],
              nextExpenseId := db.nextExpenseId + 1 }) :=
      resolveCategory_found _ category c hcc
    have hins2 : Models.insertExpense
        { db with
          users := db.users ++ [⟨db.nextUserId, user_name⟩],
          nextUserId := db.nextUserId + 1,
          expenses := db.expenses ++
            [⟨db.nextExpenseId, date, c.id, trim title,
              amount, db.now, db.nextUserId⟩],
          nextExpenseId := db.nextExpenseId + 1 }
        date c.id title amount db.nextUserId
        = .ok (db.nextExpenseId + 1,
            { db with
              users := db.users ++ [⟨db.nextUserId, user_name⟩],
              nextUserId := db.nextUserId + 1,
              expenses := (db.expenses ++
                [⟨db.nextExpenseId, date, c.id, trim title,
                  amount, db.now, db.nextUserId⟩]) ++
                [⟨db.nextExpenseId + 1, date, c.id, trim title,
                  amount, db.now, db.nextUserId⟩],
              nextExpenseId := db.nextExpenseId + 1 + 1 }) :=
      insertExpense_ok _ date c.id title amount db.nextUserId
        ht ha (by simpa using hcany []) (by simp)
    have hcall2 : ExpenseOperations.recordExpense
        { db with
          users := db.users ++ [⟨db.nextUserId, user_name⟩],
          nextUserId := db.nextUserId + 1,
          expenses := db.expenses ++
            [⟨db.nextExpenseId, date, c.id, trim title,
              amount, db.now, db.nextUserId⟩],
          nextExpenseId := db.nextExpenseId + 1 }
        date category title amount user_name
        = .ok (db.nextExpenseId + 1,
            { db with
              users := db.users ++ [⟨db.nextUserId, user_name⟩],
              nextUserId := db.nextUserId + 1,
              expenses := (db.expenses ++
                [⟨db.nextExpenseId, date, c.id, trim title,
                  amount, db.now, db.nextUserId⟩]) ++
                [⟨db.nextExpenseId + 1, date, c.id, trim title,
                  amount, db.now, db.nextUserId⟩],
              nextExpenseId := db.nextExpenseId + 1 + 1 }) := by
      rw [recordExpense_unfold _ date category title amount user_name
        hd hva hvt hvu hvc]
      simp only [hru2, hrc2, hins2]
    refine ⟨db.nextExpenseId, _, db.nextExpenseId + 1, _, c.id,
      hcall1, rfl, ?_, fun _ _ => rfl, hcall2, rfl, rfl, ?_, ?_⟩
    · exact fun hnone => Option.noConfusion hnone
    · simp
    · simp

/-- Witness for C3 on the fresh store with the whitespace-free user name
"Bob" and the unseen category "Food". -/
theorem C3_identity_resolution_amended_witness :
    validateDate "2025-01-01" = true ∧
    trim "Bob" = "Bob" ∧
    Models.getUserByName (emptyDB "T") "Bob" = none ∧
    (∃ eid1 db1 eid2 db2 cid,
      ExpenseOperations.recordExpense (emptyDB "T") "2025-01-01" "Food"
          "Lunch" 10 "Bob"
        = .ok (eid1, db1) ∧
      db1.users = (emptyDB "T").users
        ++ [⟨(emptyDB "T").nextUserId, "Bob"⟩] ∧
      (Models.getCategoryByName (emptyDB "T") "Food" = none →
        db1.categories = (emptyDB "T").categories
          ++ [⟨(emptyDB "T").nextCategoryId, "Food"⟩]) ∧
      (∀ c, Models.getCategoryByName (emptyDB "T") "Food" = some c →
        db1.categories = (emptyDB "T").categories) ∧
      ExpenseOperations.recordExpense db1 "2025-01-01" "Food" "Lunch" 10 "Bob"
        = .ok (eid2, db2) ∧
      db2.users = db1.users ∧
      db2.categories = db1.categories ∧
      (db1.expenses.map (fun e => (e.user_id, e.category_id))).getLast?
        = some ((emptyDB "T").nextUserId, cid) ∧
      (db2.expenses.map (fun e => (e.user_id, e.category_id))).getLast?
        = some ((emptyDB "T").nextUserId, cid)) :=
  ⟨by decide, rfl, rfl,
   C3_identity_resolution_amended (emptyDB "T") "2025-01-01" "Food" "Lunch"
     10 "Bob" (by decide) (by decide) (by decide) (by decide) rfl (by decide)
     rfl⟩

end ExpenseTracker
